import Mathlib

/-!
# Verification of the PDF converter bot core (`bot.py`)

Shallow embedding of the conversion core of `bot.py`:
the name sanitizer, the backend locator interface, the format classifier,
the office-suite backend with its process-timeout and output-discovery logic,
the conversion dispatcher, and the two-step session state machine, together
with theorems settling the specification claims.

Strings are modelled as `List Char`, file contents as `List Nat` (bytes),
and the job working directory as an association list of named files with
modification times.  External effects (process spawning, the chat transport)
are modelled as explicit state or as parameters recording the behaviour of
the collaborator.
-/

set_option autoImplicit false

namespace PdfBot

/-! ## Python primitives used by `bot.py` -/

/-- Python's notion of whitespace, as used by `str.strip()` (no arguments)
and by the regex class `\s` on `str`: characters whose `str.isspace()` is
true.  This is the Unicode whitespace set of CPython. -/
def pyIsSpace (c : Char) : Bool :=
  c.toNat = 0x20 || c.toNat = 0x09 || c.toNat = 0x0a || c.toNat = 0x0b ||
  c.toNat = 0x0c || c.toNat = 0x0d ||
  c.toNat = 0x1c || c.toNat = 0x1d || c.toNat = 0x1e || c.toNat = 0x1f ||
  c.toNat = 0x85 || c.toNat = 0xa0 || c.toNat = 0x1680 ||
  (0x2000 ≤ c.toNat && c.toNat ≤ 0x200a) ||
  c.toNat = 0x2028 || c.toNat = 0x2029 || c.toNat = 0x202f ||
  c.toNat = 0x205f || c.toNat = 0x3000

/-- `name.strip()`: remove leading and trailing whitespace. -/
def pyStrip (l : List Char) : List Char :=
  ((l.dropWhile pyIsSpace).reverse.dropWhile pyIsSpace).reverse

/-- The character class kept by `re.sub(r"[^A-Za-z0-9 _-]+", "_", name)`:
ASCII letters, digits, space, underscore and hyphen. -/
def isAllowedChar (c : Char) : Bool :=
  (decide ('A' ≤ c) && decide (c ≤ 'Z')) ||
  (decide ('a' ≤ c) && decide (c ≤ 'z')) ||
  (decide ('0' ≤ c) && decide (c ≤ '9')) ||
  c == ' ' || c == '_' || c == '-'

/-- Worker for `replaceRuns`: `inRun` records whether the previous character
belonged to a run of characters satisfying `p` (whose replacement has
already been emitted). -/
def replaceRunsGo (p : Char → Bool) (r : Char) : Bool → List Char → List Char
  | _, [] => []
  | true, c :: cs =>
    if p c then replaceRunsGo p r true cs
    else c :: replaceRunsGo p r false cs
  | false, c :: cs =>
    if p c then r :: replaceRunsGo p r true cs
    else c :: replaceRunsGo p r false cs

/-- `re.sub(pattern+, r, s)` for a single-character class: every maximal
nonempty run of characters satisfying `p` is replaced by the single
character `r`.  This is the semantics of both `re.sub(r"[^A-Za-z0-9 _-]+", "_", s)`
(with `p` the complement of `isAllowedChar`) and `re.sub(r"\s+", " ", s)`
(with `p = pyIsSpace`). -/
def replaceRuns (p : Char → Bool) (r : Char) (l : List Char) : List Char :=
  replaceRunsGo p r false l

/-- Does the string end in `.pdf`, case-insensitively?  This is the match
condition of `re.sub(r"\.pdf$", "", name, flags=re.IGNORECASE)`; since the
string has already been stripped it has no trailing newline, so `$` matches
only at the true end of the string. -/
def endsWithPdfCI (l : List Char) : Bool :=
  match l.reverse with
  | f :: d :: p :: dot :: _ =>
    dot == '.' && (p == 'p' || p == 'P') && (d == 'd' || d == 'D') &&
      (f == 'f' || f == 'F')
  | _ => false

/-- `re.sub(r"\.pdf$", "", name, flags=re.IGNORECASE)` on a stripped string:
drop a trailing case-insensitive `.pdf` if present. -/
def stripPdfSuffix (l : List Char) : List Char :=
  if endsWithPdfCI l then l.take (l.length - 4) else l

/-! ## Name Sanitizer (`sanitize_filename`, bot.py lines 41-52) -/

/-- `sanitize_filename(name, max_len)` from `bot.py`:
strip; on empty return `"converted"`; drop a trailing case-insensitive
`.pdf`; replace runs of characters outside `[A-Za-z0-9 _-]` by `"_"`;
collapse whitespace runs to a single space and strip; on empty fall back to
`"converted"`; finally truncate to `max_len` characters. -/
def sanitize_filename (name : List Char) (max_len : Nat) : List Char :=
  let name₁ := pyStrip name
  if name₁ = [] then "converted".toList
  else
    let name₂ := stripPdfSuffix name₁
    let name₃ := replaceRuns (fun c => !isAllowedChar c) '_' name₂
    let name₄ := pyStrip (replaceRuns pyIsSpace ' ' name₃)
    let name₅ := if name₄ = [] then "converted".toList else name₄
    name₅.take max_len

example : sanitize_filename "".toList 64 = "converted".toList := by decide
example : sanitize_filename "   ".toList 64 = "converted".toList := by decide
example : sanitize_filename "Report.PDF".toList 64 = "Report".toList := by decide
example : sanitize_filename "a/b\\c:d".toList 64 = "a_b_c_d".toList := by decide
example : sanitize_filename "..pdf".toList 64 = "_".toList := by decide
example : sanitize_filename ".pdf".toList 64 = "converted".toList := by decide
example : sanitize_filename "  my   file!!.pdf ".toList 64 = "my file_".toList := by decide

/-! ### Sanitizer lemmas -/

theorem mem_replaceRunsGo {p : Char → Bool} {r : Char} {b : Bool}
    {l : List Char} {c : Char} (h : c ∈ replaceRunsGo p r b l) :
    c = r ∨ (p c = false ∧ c ∈ l) := by
  induction l generalizing b with
  | nil => cases b <;> simp [replaceRunsGo] at h
  | cons a as ih =>
    have step : ∀ h' : c ∈ replaceRunsGo p r false as ∨ c ∈ replaceRunsGo p r true as,
        c = r ∨ (p c = false ∧ c ∈ as) := by
      intro h'
      rcases h' with h' | h' <;> exact ih h'
    cases b with
    | true =>
      by_cases hp : p a
      · rw [replaceRunsGo, if_pos hp] at h
        rcases step (Or.inr h) with h' | ⟨h₁, h₂⟩
        · exact Or.inl h'
        · exact Or.inr ⟨h₁, List.mem_cons_of_mem _ h₂⟩
      · rw [replaceRunsGo, if_neg hp] at h
        rcases List.mem_cons.mp h with h | h
        · subst h; exact Or.inr ⟨by simpa using hp, List.mem_cons_self _ _⟩
        · rcases step (Or.inl h) with h' | ⟨h₁, h₂⟩
          · exact Or.inl h'
          · exact Or.inr ⟨h₁, List.mem_cons_of_mem _ h₂⟩
    | false =>
      by_cases hp : p a
      · rw [replaceRunsGo, if_pos hp] at h
        rcases List.mem_cons.mp h with h | h
        · exact Or.inl h
        · rcases step (Or.inr h) with h' | ⟨h₁, h₂⟩
          · exact Or.inl h'
          · exact Or.inr ⟨h₁, List.mem_cons_of_mem _ h₂⟩
      · rw [replaceRunsGo, if_neg hp] at h
        rcases List.mem_cons.mp h with h | h
        · subst h; exact Or.inr ⟨by simpa using hp, List.mem_cons_self _ _⟩
        · rcases step (Or.inl h) with h' | ⟨h₁, h₂⟩
          · exact Or.inl h'
          · exact Or.inr ⟨h₁, List.mem_cons_of_mem _ h₂⟩

theorem mem_replaceRuns {p : Char → Bool} {r : Char} {l : List Char} {c : Char}
    (h : c ∈ replaceRuns p r l) : c = r ∨ (p c = false ∧ c ∈ l) :=
  mem_replaceRunsGo h

theorem mem_pyStrip {l : List Char} {c : Char} (h : c ∈ pyStrip l) : c ∈ l := by
  unfold pyStrip at h
  rw [List.mem_reverse] at h
  have h₁ := (List.dropWhile_sublist pyIsSpace).mem h
  rw [List.mem_reverse] at h₁
  exact (List.dropWhile_sublist pyIsSpace).mem h₁

theorem converted_allowed : ∀ c ∈ "converted".toList, isAllowedChar c = true := by
  decide

/-- Every character of `sanitize_filename name 64` is in the allowed set. -/
theorem sanitize_filename_chars (name : List Char) :
    ∀ c ∈ sanitize_filename name 64, isAllowedChar c = true := by
  intro c hc
  unfold sanitize_filename at hc
  by_cases h₁ : pyStrip name = []
  · simp only [h₁, if_true] at hc
    exact converted_allowed c hc
  · simp only [h₁, if_false] at hc
    have hc' := (List.take_sublist 64 _).mem hc
    by_cases h₂ :
        pyStrip (replaceRuns pyIsSpace ' '
          (replaceRuns (fun c => !isAllowedChar c) '_' (stripPdfSuffix (pyStrip name)))) = []
    · simp only [h₂, if_true] at hc'
      exact converted_allowed c hc'
    · simp only [h₂, if_false] at hc'
      have hc₂ := mem_pyStrip hc'
      rcases mem_replaceRuns hc₂ with h | ⟨_, hmem⟩
      · subst h; decide
      · rcases mem_replaceRuns hmem with h | ⟨hall, _⟩
        · subst h; decide
        · simpa using hall

/-- C6: for every text input, `sanitize_filename` (at the default
`max_len = 64`) returns a non-empty string of at most 64 characters drawn
only from letters, digits, space, underscore and hyphen; empty and
effectively-empty inputs yield the literal fallback `"converted"`. -/
theorem sanitize_filename_spec :
    (∀ name : List Char,
      sanitize_filename name 64 ≠ [] ∧
      (sanitize_filename name 64).length ≤ 64 ∧
      ∀ c ∈ sanitize_filename name 64, isAllowedChar c = true) ∧
    sanitize_filename "".toList 64 = "converted".toList ∧
    sanitize_filename "   ".toList 64 = "converted".toList ∧
    sanitize_filename ".pdf".toList 64 = "converted".toList := by
  refine ⟨fun name => ⟨?_, ?_, sanitize_filename_chars name⟩, by decide, by decide, by decide⟩
  · unfold sanitize_filename
    by_cases h₁ : pyStrip name = []
    · simp [h₁]
    · simp only [h₁, if_false]
      intro hcontra
      rw [List.take_eq_nil_iff] at hcontra
      rcases hcontra with h | h
      · exact absurd h (by decide)
      · by_cases h₂ :
          pyStrip (replaceRuns pyIsSpace ' '
            (replaceRuns (fun c => !isAllowedChar c) '_' (stripPdfSuffix (pyStrip name)))) = []
        · rw [if_pos h₂] at h
          exact absurd h (by decide)
        · rw [if_neg h₂] at h
          exact h₂ h
  · unfold sanitize_filename
    by_cases h₁ : pyStrip name = []
    · simp [h₁]
    · simp only [h₁, if_false]
      exact List.length_take_le 64 _

/-! ## Paths (`pathlib.PurePath.stem` / `.suffix` on a base name) -/

/-- Python `str.rfind(c)`: index of the last occurrence of `c`, if any. -/
def pyRfind (c : Char) (l : List Char) : Option Nat :=
  match (l.reverse.findIdx? (fun x => x == c)) with
  | none => none
  | some j => some (l.length - 1 - j)

/-- `pathlib.PurePath.suffix` of a base name: the part from the last dot on,
provided that dot is neither the first nor the last character. -/
def path_suffix (name : List Char) : List Char :=
  match pyRfind '.' name with
  | none => []
  | some i => if 0 < i ∧ i < name.length - 1 then name.drop i else []

/-- `pathlib.PurePath.stem` of a base name: the name without `path_suffix`. -/
def path_stem (name : List Char) : List Char :=
  match pyRfind '.' name with
  | none => name
  | some i => if 0 < i ∧ i < name.length - 1 then name.take i else name

/-- ASCII lowering, the fragment of Python `str.lower()` relevant to the
extension sets of `bot.py` (which are all ASCII). -/
def asciiLower (l : List Char) : List Char :=
  l.map (fun c => if decide ('A' ≤ c) && decide (c ≤ 'Z') then Char.ofNat (c.toNat + 32) else c)

example : (path_suffix "Report.DOCX".toList) = ".DOCX".toList := by decide
example : (asciiLower ".DOCX".toList).asString = ".docx" := by decide
example : (path_stem "archive.tar.gz".toList).asString = "archive.tar" := by decide
example : (path_stem ".bashrc".toList).asString = ".bashrc" := by decide
example : (path_suffix "README".toList) = [] := by decide

/-! ## Format Classifier (branch structure of `convert_to_pdf`, bot.py 147-169) -/

/-- `IMAGE_EXTS` from bot.py line 33. -/
def IMAGE_EXTS : List String := [".png", ".jpg", ".jpeg", ".webp"]

/-- `TEXT_EXTS` from bot.py line 34. -/
def TEXT_EXTS : List String := [".txt", ".md", ".log", ".csv"]

/-- `OFFICE_EXTS` from bot.py lines 36-39. -/
def OFFICE_EXTS : List String :=
  [".doc", ".docx", ".ppt", ".pptx", ".xls", ".xlsx", ".odt", ".ods", ".odp", ".rtf"]

/-- The four conversion strategies of the dispatcher. -/
inductive Strategy where
  | PassThrough
  | Image
  | Text
  | OfficeSuite
deriving DecidableEq, Repr

/-- The classification performed by the `if`/`elif` chain of
`convert_to_pdf` (bot.py lines 152-165): `.pdf` is passed through, the
image and text sets go to their backends, and everything else falls to the
office branch, whose guard `ext in OFFICE_EXTS or True` is identically
true. -/
def classify (ext : String) : Strategy :=
  if ext = ".pdf" then .PassThrough
  else if ext ∈ IMAGE_EXTS then .Image
  else if ext ∈ TEXT_EXTS then .Text
  else .OfficeSuite

/-! ## Working-directory filesystem model

The job working directory is a list of named files; the list order stands
for directory (`scandir`) order.  A global counter models a strictly
monotone clock: every write stamps the written file with a fresh, strictly
larger modification time. -/

/-- One file in the job working directory. -/
structure FileEntry where
  name : String
  mtime : Nat
  content : List Nat
deriving DecidableEq, Repr

/-- State of the modelled system: the working directory, the write clock,
how many external processes have been spawned, and whether the most
recently spawned child process is still running. -/
structure SysState where
  dir : List FileEntry
  clock : Nat
  spawned : Nat
  childRunning : Bool
deriving DecidableEq, Repr

/-- Look a file up by name. -/
def lookupFile (d : List FileEntry) (n : String) : Option FileEntry :=
  d.find? (fun e => e.name == n)

/-- Write (create or overwrite) a file with a given mtime. -/
def writeFile (d : List FileEntry) (n : String) (t : Nat) (c : List Nat) :
    List FileEntry :=
  if (lookupFile d n).isSome then
    d.map (fun e => if e.name == n then ⟨n, t, c⟩ else e)
  else d ++ [⟨n, t, c⟩]

/-- Write a file into the state, advancing the clock. -/
def writeS (s : SysState) (n : String) (c : List Nat) : SysState :=
  { s with dir := writeFile s.dir n (s.clock + 1) c, clock := s.clock + 1 }

/-! ## External process model (`subprocess.run` with `check` and `timeout`) -/

/-- Observable behaviour of one invocation of the office engine: its exit
code, how long it runs, and the files it writes into the output
directory. -/
structure EngineRun where
  exitCode : Nat
  duration : Nat
  outputs : List (String × List Nat)
deriving DecidableEq, Repr

/-- Result of `subprocess.run`: either the child completed with an exit
code, or the timeout expired. -/
inductive RunResult where
  | completed (exitCode : Nat)
  | timedOut
deriving DecidableEq, Repr

/-- `subprocess.run(cmd, check=True, ..., timeout=timeout_sec)`:
spawns the child; if the child outlives the timeout, `run` kills it and
raises `TimeoutExpired` (so the child is no longer running); otherwise the
child's writes land in the directory and its exit code is reported. -/
def subprocess_run (eng : EngineRun) (timeout_sec : Nat) (s : SysState) :
    RunResult × SysState :=
  let s₁ : SysState := { s with spawned := s.spawned + 1, childRunning := true }
  if timeout_sec < eng.duration then
    (.timedOut, { s₁ with childRunning := false })
  else
    let s₂ := eng.outputs.foldl (fun st nc => writeS st nc.1 nc.2) s₁
    (.completed eng.exitCode, { s₂ with childRunning := false })

/-! ## Error kinds raised by the conversion core -/

/-- The failure kinds of the conversion core, one per raise site:
`EngineNotFound` (bot.py 115), `ConversionTimeout` (`TimeoutExpired` from
bot.py 134), `ConversionProcessFailed` (`CalledProcessError` from bot.py
134, carrying the exit code), `NoOutputProduced` (bot.py 144),
`SameFileCopy` (`shutil.SameFileError` from `copyfile`), `MissingInput`
(`FileNotFoundError` reading the input), and `UnsupportedInputUnreadable`
(an `img2pdf` decode failure). -/
inductive ConvError where
  | EngineNotFound
  | ConversionTimeout
  | ConversionProcessFailed (code : Nat)
  | NoOutputProduced
  | SameFileCopy
  | MissingInput
  | UnsupportedInputUnreadable
deriving DecidableEq, Repr

/-- `shutil.copyfile(src, dst)` within the working directory: raises
`SameFileError` when source and destination are the same file, otherwise
copies the source bytes to the destination. -/
def shutil_copyfile (src dst : String) (s : SysState) :
    Except ConvError SysState :=
  if src = dst then .error .SameFileCopy
  else
    match lookupFile s.dir src with
    | none => .error .MissingInput
    | some e => .ok (writeS s dst e.content)

/-! ## Office-suite backend (`convert_office_to_pdf`, bot.py 112-145) -/

/-- Does a name match the glob pattern `*.pdf`, i.e. end in `.pdf`
(case-sensitively)? -/
def isPdfName (n : String) : Bool :=
  match n.toList.reverse with
  | f :: d :: p :: dot :: _ => f == 'f' && d == 'd' && p == 'p' && dot == '.'
  | _ => false

/-- `sorted(out_dir.glob("*.pdf"), key=mtime, reverse=True)`: the PDF files
of the directory, most recently modified first; `sorted` is stable, so ties
keep directory order. -/
def newestPdfFirst (d : List FileEntry) : List FileEntry :=
  (d.filter (fun e => isPdfName e.name)).mergeSort
    (fun a b => decide (b.mtime ≤ a.mtime))

/-- `convert_office_to_pdf(input_path, out_dir, timeout_sec)`:
fail with `EngineNotFound` when the locator finds no engine; otherwise
spawn the engine under the timeout; a timeout or a non-zero exit is an
error; on success return the file named after the input's stem with a
`.pdf` extension if it exists, else the most recently modified PDF, and
fail with `NoOutputProduced` when there is none. -/
def convert_office_to_pdf (locator : Option String) (eng : EngineRun)
    (inputName : String) (timeout_sec : Nat) (s : SysState) :
    Except ConvError String × SysState :=
  match locator with
  | none => (.error .EngineNotFound, s)
  | some _ =>
    match subprocess_run eng timeout_sec s with
    | (.timedOut, s₁) => (.error .ConversionTimeout, s₁)
    | (.completed code, s₁) =>
      if code ≠ 0 then (.error (.ConversionProcessFailed code), s₁)
      else
        let expected := (path_stem inputName.toList).asString ++ ".pdf"
        if (lookupFile s₁.dir expected).isSome then (.ok expected, s₁)
        else
          match newestPdfFirst s₁.dir with
          | [] => (.error .NoOutputProduced, s₁)
          | e :: _ => (.ok e.name, s₁)

/-! ## Conversion Dispatcher (`convert_to_pdf`, bot.py 147-169) -/

/-- Behaviour of the collaborators of one conversion: the result of
`find_soffice()`, the behaviour of a spawned engine process,
`img2pdf.convert` (`none` models a decode failure), and the deterministic
reportlab text rendering. -/
structure Env where
  locator : Option String
  eng : EngineRun
  imgConvert : List Nat → Option (List Nat)
  textConvert : List Nat → List Nat

/-- `convert_to_pdf(input_path, work_dir)`: lower-case the input's
extension, dispatch on it, and standardize the produced artifact at the
fixed relative path `output.pdf` inside the working directory. -/
def convert_to_pdf (env : Env) (inputName : String) (s : SysState) :
    Except ConvError String × SysState :=
  let ext := (asciiLower (path_suffix inputName.toList)).asString
  let pdf_path := "output.pdf"
  match classify ext with
  | .PassThrough =>
    match shutil_copyfile inputName pdf_path s with
    | .error e => (.error e, s)
    | .ok s₁ => (.ok pdf_path, s₁)
  | .Image =>
    match lookupFile s.dir inputName with
    | none => (.error .MissingInput, s)
    | some f =>
      match env.imgConvert f.content with
      | none => (.error .UnsupportedInputUnreadable, s)
      | some b => (.ok pdf_path, writeS s pdf_path b)
  | .Text =>
    match lookupFile s.dir inputName with
    | none => (.error .MissingInput, s)
    | some f => (.ok pdf_path, writeS s pdf_path (env.textConvert f.content))
  | .OfficeSuite =>
    match convert_office_to_pdf env.locator env.eng inputName 90 s with
    | (.error e, s₁) => (.error e, s₁)
    | (.ok outPdf, s₁) =>
      match shutil_copyfile outPdf pdf_path s₁ with
      | .error e => (.error e, s₁)
      | .ok s₂ => (.ok pdf_path, s₂)

/-! ## Session State Machine (`ConversationHandler` wiring, bot.py 171-296)

One job's session: the conversation state (`WAIT_FILE`, `WAIT_NAME`, or
terminal via `ConversationHandler.END`), the two `user_data` entries, and
the job working directory on disk (`none` when no directory exists).  The
model follows one job; `tempfile.mkdtemp` is modelled as a fresh empty
directory state. -/

/-- Conversation states; `Terminal` is `ConversationHandler.END`. -/
inductive BotState where
  | WAIT_FILE
  | WAIT_NAME
  | Terminal
deriving DecidableEq, Repr

/-- The user-visible replies sent by the handlers, one per `reply_text` /
`reply_document` call site. -/
inductive Reply where
  | promptForFile
  | sizeLimit
  | downloadFailed
  | askName
  | cancelled
  | contextLost
  | converting
  | sentDocument (filename : List Char)
  | done
  | timeoutMsg
  | officeFailed (code : Nat)
  | genericFailed
deriving DecidableEq, Repr

/-- One job's session. -/
structure Session where
  state : BotState
  work_dir : Option String
  input_path : Option String
  disk : Option SysState
deriving DecidableEq, Repr

/-- The inbound message at the file step. -/
inductive InMsg where
  | document (file_name : Option String) (file_size : Option Nat)
  | photo (file_size : Option Nat)
  | other
deriving DecidableEq, Repr

/-- The metadata extraction of `receive_file` (bot.py 192-205): a document
yields its name (default `"file"`) and declared size; a photo yields the
fixed name `"photo.jpg"` and its declared size; anything else is refused. -/
def fileMeta : InMsg → Option (String × Option Nat)
  | .document n sz => some (n.getD "file", sz)
  | .photo sz => some ("photo.jpg", sz)
  | .other => none

/-- The 20 MiB declared-size ceiling (bot.py 207). -/
def SIZE_LIMIT : Nat := 20 * 1024 * 1024

/-- The guard `if file_size and file_size > 20 * 1024 * 1024` (bot.py 207):
`file_size` may be `None` or `0`, both falsy, in which case the comparison
is never evaluated. -/
def sizeRejected : Option Nat → Bool
  | none => false
  | some n => n != 0 && decide (SIZE_LIMIT < n)

/-- `/cancel` handler (bot.py 178-181): clear `user_data`, acknowledge,
end the conversation.  The working directory is not touched. -/
def cancel (sess : Session) : Session × List Reply :=
  ({ sess with state := .Terminal, work_dir := none, input_path := none },
   [.cancelled])

/-- `receive_file` (bot.py 183-237).  `downloadOk` is whether
`get_file`/`download_to_drive` succeeds, `bytes` the downloaded content
(of arbitrary size: the handler never consults it), `newDir` the fresh
directory name from `tempfile.mkdtemp`. -/
def receive_file (msg : InMsg) (downloadOk : Bool) (bytes : List Nat)
    (newDir : String) (sess : Session) : Session × List Reply :=
  match fileMeta msg with
  | none => ({ sess with state := .WAIT_FILE }, [.promptForFile])
  | some (original_name, file_size) =>
    if sizeRejected file_size then
      ({ sess with state := .WAIT_FILE }, [.sizeLimit])
    else
      let fresh : SysState := { dir := [], clock := 0, spawned := 0, childRunning := false }
      if downloadOk then
        ({ state := .WAIT_NAME, work_dir := some newDir,
           input_path := some original_name,
           disk := some (writeS fresh original_name bytes) },
         [.askName])
      else
        ({ sess with state := .WAIT_FILE, disk := none }, [.downloadFailed])

/-- `receive_name_and_convert` (bot.py 239-276).  `deliverOk` is whether
`reply_document` succeeds; the returned `Bool` records whether
`convert_to_pdf` was invoked.

The handler computes `Path(context.user_data.get("work_dir", ""))`: an
absent entry defaults to `""`, and `Path("")` is `PosixPath('.')` — the
process current working directory, which exists.  The existence guard
therefore passes for absent entries, and conversion is attempted against
the current working directory (`cwd` below), with the `finally` block's
`rmtree` likewise aimed at `'.'` rather than at any job directory.  Only a
*recorded* path that is missing from disk makes the guard fire. -/
def receive_name_and_convert (env : Env) (deliverOk : Bool) (text : List Char)
    (cwd : SysState) (sess : Session) : Session × List Reply × Bool :=
  let desired := sanitize_filename text 64
  let workDirExists :=
    match sess.work_dir with
    | none => true
    | some _ => sess.disk.isSome
  let inputExists :=
    match sess.input_path with
    | none => true
    | some p =>
      match sess.disk with
      | some fs => (lookupFile fs.dir p).isSome
      | none => false
  if !(workDirExists && inputExists) then
    ({ sess with state := .Terminal, work_dir := none, input_path := none },
     [.contextLost], false)
  else
    let replyFor : Except ConvError String × SysState → List Reply := fun res =>
      match res with
      | (.ok _, _) =>
        if deliverOk then
          [.converting, .sentDocument (desired ++ ".pdf".toList), .done]
        else [.converting, .genericFailed]
      | (.error .ConversionTimeout, _) => [.converting, .timeoutMsg]
      | (.error (.ConversionProcessFailed c), _) => [.converting, .officeFailed c]
      | (.error _, _) => [.converting, .genericFailed]
    match sess.work_dir, sess.disk with
    | some _, some fs =>
      ({ state := .Terminal, work_dir := none, input_path := none, disk := none },
       replyFor (convert_to_pdf env (sess.input_path.getD "") fs), true)
    | _, _ =>
      ({ sess with state := .Terminal, work_dir := none, input_path := none },
       replyFor (convert_to_pdf env (sess.input_path.getD "") cwd), true)

/-! ## Concrete instances used in witnesses and counterexamples -/

/-- An idle session with no job in flight. -/
def idleSession : Session := ⟨.WAIT_FILE, none, none, none⟩

/-- A conversion environment with no reachable engine and trivial codecs,
for concrete witnesses. -/
def envNoEngine : Env :=
  ⟨none, ⟨0, 0, []⟩, fun _ => none, fun _ => []⟩

/-- A session at the name step whose working directory holds the uploaded
file. -/
def midSession : Session :=
  ⟨.WAIT_NAME, some "tg_pdf_7", some "report.docx",
   some ⟨[⟨"report.docx", 1, [80, 75]⟩], 1, 0, false⟩⟩

/-- An environment whose engine is instant, exits 0, and writes
`weird.pdf` — the name-variance case the fallback discovery exists for. -/
def envWeird : Env :=
  ⟨some "/usr/bin/soffice", ⟨0, 0, [("weird.pdf", [7, 7])]⟩, fun _ => none, fun _ => []⟩

/-- A name-step session whose `user_data` was lost entirely. -/
def lostSession : Session := ⟨.WAIT_NAME, none, none, none⟩

/-- A process current working directory with some unrelated content. -/
def processCwd : SysState := ⟨[⟨"notes.txt", 5, [110]⟩], 5, 0, false⟩

/-- A working directory holding only an uploaded empty PDF. -/
def emptyPdfState : SysState := ⟨[⟨"in.pdf", 1, []⟩], 1, 0, false⟩

/-- A working directory holding `output.docx`, an office input whose stem
collides with the canonical output name. -/
def outputDocxState : SysState := ⟨[⟨"output.docx", 1, [80, 75]⟩], 1, 0, false⟩

/-- A working directory holding a non-empty uploaded PDF. -/
def helloPdfState : SysState := ⟨[⟨"hello.pdf", 1, [37, 80, 68, 70]⟩], 1, 0, false⟩

/-! ## Lookup/write lemmas for the directory model -/

theorem lookupFile_cons (e : FileEntry) (es : List FileEntry) (n : String) :
    lookupFile (e :: es) n = if e.name = n then some e else lookupFile es n := by
  by_cases h : e.name = n
  · simp [lookupFile, h]
  · simp [lookupFile, h]

theorem lookupFile_map_write (d : List FileEntry) (m : String) (t : Nat)
    (c : List Nat) (hs : (lookupFile d m).isSome) :
    lookupFile (d.map (fun e => if e.name == m then ⟨m, t, c⟩ else e)) m =
      some ⟨m, t, c⟩ := by
  induction d with
  | nil => simp [lookupFile] at hs
  | cons e es ih =>
    rw [List.map_cons]
    by_cases he : e.name = m
    · rw [if_pos (by simpa using he), lookupFile_cons, if_pos rfl]
    · rw [if_neg (by simpa using he), lookupFile_cons, if_neg he]
      rw [lookupFile_cons, if_neg he] at hs
      exact ih hs

theorem lookupFile_map_write_ne (d : List FileEntry) (m n : String) (t : Nat)
    (c : List Nat) (h : m ≠ n) :
    lookupFile (d.map (fun e => if e.name == m then ⟨m, t, c⟩ else e)) n =
      lookupFile d n := by
  induction d with
  | nil => rfl
  | cons e es ih =>
    rw [List.map_cons]
    by_cases hem : e.name = m
    · rw [if_pos (show (e.name == m) = true by simpa using hem)]
      rw [lookupFile_cons, lookupFile_cons]
      rw [if_neg (show ¬(FileEntry.mk m t c).name = n from h)]
      rw [if_neg (show ¬e.name = n by rw [hem]; exact h)]
      exact ih
    · rw [if_neg (show ¬(e.name == m) = true by simpa using hem)]
      rw [lookupFile_cons, lookupFile_cons]
      by_cases hen : e.name = n
      · rw [if_pos hen, if_pos hen]
      · rw [if_neg hen, if_neg hen]
        exact ih

theorem lookupFile_append_one (d : List FileEntry) (x : FileEntry)
    (hn : lookupFile d x.name = none) :
    lookupFile (d ++ [x]) x.name = some x := by
  unfold lookupFile at hn ⊢
  rw [List.find?_append, hn]
  simp

theorem lookupFile_append_one_ne (d : List FileEntry) (x : FileEntry)
    (n : String) (h : x.name ≠ n) :
    lookupFile (d ++ [x]) n = lookupFile d n := by
  unfold lookupFile
  rw [List.find?_append]
  have hx : List.find? (fun e => e.name == n) [x] = none := by simp [h]
  rw [hx]
  simp

theorem lookupFile_writeFile (d : List FileEntry) (n : String) (t : Nat)
    (c : List Nat) : lookupFile (writeFile d n t c) n = some ⟨n, t, c⟩ := by
  unfold writeFile
  by_cases hs : (lookupFile d n).isSome
  · simpa [hs] using lookupFile_map_write d n t c hs
  · have hn : lookupFile d n = none := by
      cases hfind : lookupFile d n
      · rfl
      · rw [hfind] at hs
        simp at hs
    simpa [hs] using lookupFile_append_one d ⟨n, t, c⟩ hn

theorem lookupFile_writeFile_ne (d : List FileEntry) (m n : String) (t : Nat)
    (c : List Nat) (h : m ≠ n) :
    lookupFile (writeFile d m t c) n = lookupFile d n := by
  unfold writeFile
  by_cases hs : (lookupFile d m).isSome
  · simpa [hs] using lookupFile_map_write_ne d m n t c h
  · simpa [hs] using lookupFile_append_one_ne d ⟨m, t, c⟩ n h

theorem lookupFile_writeS (s : SysState) (n : String) (c : List Nat) :
    lookupFile (writeS s n c).dir n = some ⟨n, s.clock + 1, c⟩ :=
  lookupFile_writeFile s.dir n (s.clock + 1) c

theorem lookupFile_writeS_ne (s : SysState) (m n : String) (c : List Nat)
    (h : m ≠ n) : lookupFile (writeS s m c).dir n = lookupFile s.dir n :=
  lookupFile_writeFile_ne s.dir m n (s.clock + 1) c h

/-- The pass-through branch of the dispatcher. -/
theorem convert_to_pdf_pass (env : Env) (inputName : String) (s : SysState)
    (hcl : classify ((asciiLower (path_suffix inputName.toList)).asString) = .PassThrough) :
    convert_to_pdf env inputName s =
      match shutil_copyfile inputName "output.pdf" s with
      | .error e => (.error e, s)
      | .ok s₁ => (.ok "output.pdf", s₁) := by
  simp only [convert_to_pdf]
  rw [hcl]

/-- The image branch of the dispatcher. -/
theorem convert_to_pdf_image (env : Env) (inputName : String) (s : SysState)
    (hcl : classify ((asciiLower (path_suffix inputName.toList)).asString) = .Image) :
    convert_to_pdf env inputName s =
      match lookupFile s.dir inputName with
      | none => (.error .MissingInput, s)
      | some f =>
        match env.imgConvert f.content with
        | none => (.error .UnsupportedInputUnreadable, s)
        | some b => (.ok "output.pdf", writeS s "output.pdf" b) := by
  simp only [convert_to_pdf]
  rw [hcl]

/-- The text branch of the dispatcher. -/
theorem convert_to_pdf_text (env : Env) (inputName : String) (s : SysState)
    (hcl : classify ((asciiLower (path_suffix inputName.toList)).asString) = .Text) :
    convert_to_pdf env inputName s =
      match lookupFile s.dir inputName with
      | none => (.error .MissingInput, s)
      | some f => (.ok "output.pdf", writeS s "output.pdf" (env.textConvert f.content)) := by
  simp only [convert_to_pdf]
  rw [hcl]

/-- The office branch of the dispatcher. -/
theorem convert_to_pdf_office (env : Env) (inputName : String) (s : SysState)
    (hcl : classify ((asciiLower (path_suffix inputName.toList)).asString) = .OfficeSuite) :
    convert_to_pdf env inputName s =
      match convert_office_to_pdf env.locator env.eng inputName 90 s with
      | (.error e, s₁) => (.error e, s₁)
      | (.ok outPdf, s₁) =>
        match shutil_copyfile outPdf "output.pdf" s₁ with
        | .error e => (.error e, s₁)
        | .ok s₂ => (.ok "output.pdf", s₂) := by
  simp only [convert_to_pdf]
  rw [hcl]

/-- The pass-through branch on a successful copy. -/
theorem convert_to_pdf_pass_ok (env : Env) (inputName : String) (s t : SysState)
    (hcl : classify ((asciiLower (path_suffix inputName.toList)).asString) = .PassThrough)
    (hcopy : shutil_copyfile inputName "output.pdf" s = .ok t) :
    convert_to_pdf env inputName s = (.ok "output.pdf", t) := by
  rw [convert_to_pdf_pass env inputName s hcl, hcopy]

/-- The image branch on a successful decode. -/
theorem convert_to_pdf_image_ok (env : Env) (inputName : String) (s : SysState)
    (f : FileEntry) (b : List Nat)
    (hcl : classify ((asciiLower (path_suffix inputName.toList)).asString) = .Image)
    (hf : lookupFile s.dir inputName = some f)
    (hb : env.imgConvert f.content = some b) :
    convert_to_pdf env inputName s = (.ok "output.pdf", writeS s "output.pdf" b) := by
  rw [convert_to_pdf_image env inputName s hcl, hf]
  show (match env.imgConvert f.content with
        | none => (Except.error ConvError.UnsupportedInputUnreadable, s)
        | some b => (Except.ok "output.pdf", writeS s "output.pdf" b)) = _
  rw [hb]

/-- The text branch on an existing input. -/
theorem convert_to_pdf_text_ok (env : Env) (inputName : String) (s : SysState)
    (f : FileEntry)
    (hcl : classify ((asciiLower (path_suffix inputName.toList)).asString) = .Text)
    (hf : lookupFile s.dir inputName = some f) :
    convert_to_pdf env inputName s =
      (.ok "output.pdf", writeS s "output.pdf" (env.textConvert f.content)) := by
  rw [convert_to_pdf_text env inputName s hcl, hf]

/-- The office branch on a successful conversion and copy. -/
theorem convert_to_pdf_office_ok (env : Env) (inputName : String)
    (s : SysState) (outPdf : String) (t t' : SysState)
    (hcl : classify ((asciiLower (path_suffix inputName.toList)).asString) = .OfficeSuite)
    (hoff : convert_office_to_pdf env.locator env.eng inputName 90 s = (.ok outPdf, t))
    (hcopy : shutil_copyfile outPdf "output.pdf" t = .ok t') :
    convert_to_pdf env inputName s = (.ok "output.pdf", t') := by
  rw [convert_to_pdf_office env inputName s hcl, hoff]
  show (match shutil_copyfile outPdf "output.pdf" t with
        | .error e => (Except.error e, t)
        | .ok s₂ => (Except.ok "output.pdf", s₂)) = _
  rw [hcopy]

/-- Inversion of a successful `shutil.copyfile`: the two paths differ, the
source exists, and the state is the source's bytes written at the
destination. -/
theorem shutil_copyfile_ok_inv (src dst : String) (s s₁ : SysState)
    (h : shutil_copyfile src dst s = .ok s₁) :
    src ≠ dst ∧ ∃ f, lookupFile s.dir src = some f ∧ s₁ = writeS s dst f.content := by
  unfold shutil_copyfile at h
  split at h
  · exact absurd h (by simp)
  · rename_i hne
    split at h
    · exact absurd h (by simp)
    · rename_i f hf
      refine ⟨hne, f, hf, ?_⟩
      injection h with h
      exact h.symm

/-- The state after a within-timeout engine run: the process was spawned,
its outputs were written, and the child has exited. -/
def enginePost (eng : EngineRun) (s : SysState) : SysState :=
  { (eng.outputs.foldl (fun st nc => writeS st nc.1 nc.2)
      { s with spawned := s.spawned + 1, childRunning := true }) with
    childRunning := false }

theorem subprocess_run_ok (eng : EngineRun) (s : SysState)
    (h : eng.duration ≤ 90) :
    subprocess_run eng 90 s = (.completed eng.exitCode, enginePost eng s) := by
  unfold subprocess_run enginePost
  rw [if_neg (by omega)]

/-- `convert_office_to_pdf` after a successful, within-timeout engine run:
only the discovery logic remains. -/
theorem convert_office_run_ok (loc : String) (eng : EngineRun)
    (inputName : String) (s : SysState)
    (hdur : eng.duration ≤ 90) (hexit : eng.exitCode = 0) :
    convert_office_to_pdf (some loc) eng inputName 90 s =
      (if (lookupFile (enginePost eng s).dir
            ((path_stem inputName.toList).asString ++ ".pdf")).isSome
       then (.ok ((path_stem inputName.toList).asString ++ ".pdf"), enginePost eng s)
       else
         match newestPdfFirst (enginePost eng s).dir with
         | [] => (.error .NoOutputProduced, enginePost eng s)
         | e :: _ => (.ok e.name, enginePost eng s)) := by
  simp only [convert_office_to_pdf]
  rw [subprocess_run_ok eng s hdur, hexit]
  simp

/-- The head of `newestPdfFirst` is a PDF of the directory with maximal
modification time. -/
theorem newestPdfFirst_head_max (d : List FileEntry) (w : FileEntry)
    (rest : List FileEntry) (h : newestPdfFirst d = w :: rest) :
    w ∈ d ∧ isPdfName w.name = true ∧
    ∀ e ∈ d, isPdfName e.name = true → e.mtime ≤ w.mtime := by
  have hperm : ∀ x : FileEntry, x ∈ newestPdfFirst d ↔
      x ∈ d.filter (fun e => isPdfName e.name) := by
    intro x
    unfold newestPdfFirst
    exact List.mem_mergeSort
  have hw : w ∈ d.filter (fun e => isPdfName e.name) :=
    (hperm w).mp (h ▸ List.mem_cons_self w rest)
  have hw₁ := List.mem_filter.mp hw
  refine ⟨hw₁.1, hw₁.2, ?_⟩
  intro e he hpdf
  have hes : e ∈ newestPdfFirst d :=
    (hperm e).mpr (List.mem_filter.mpr ⟨he, hpdf⟩)
  rw [h] at hes
  rcases List.mem_cons.mp hes with rfl | hes
  · exact Nat.le_refl _
  · have hsorted : (newestPdfFirst d).Pairwise
        (fun a b => decide (b.mtime ≤ a.mtime) = true) := by
      unfold newestPdfFirst
      apply List.sorted_mergeSort
      · intro a b c hab hbc
        simp only [decide_eq_true_eq] at hab hbc ⊢
        omega
      · intro a b
        simp only [Bool.or_eq_true, decide_eq_true_eq]
        omega
    rw [h] at hsorted
    have := (List.pairwise_cons.mp hsorted).1 e hes
    simpa using this

/-! ### Engine-output bookkeeping for the idempotence analysis -/

/-- The content of the last engine output written under a given name. -/
def lastOutput (outs : List (String × List Nat)) (n : String) : Option (List Nat) :=
  (outs.reverse.find? (fun nc => nc.1 == n)).map Prod.snd

theorem lastOutput_cons_mem (m : String) (c : List Nat)
    (rest : List (String × List Nat)) (n : String)
    (hr : ∃ b, (n, b) ∈ rest) :
    lastOutput ((m, c) :: rest) n = lastOutput rest n := by
  unfold lastOutput
  rw [List.reverse_cons, List.find?_append]
  have hsome : (rest.reverse.find? (fun nc => nc.1 == n)).isSome := by
    rw [List.find?_isSome]
    obtain ⟨b, hb⟩ := hr
    exact ⟨(n, b), List.mem_reverse.mpr hb, by simp⟩
  obtain ⟨v, hv⟩ := Option.isSome_iff_exists.mp hsome
  rw [hv, Option.or_some]

theorem lastOutput_isSome (outs : List (String × List Nat)) (n : String)
    (hmem : ∃ b, (n, b) ∈ outs) : ∃ c, lastOutput outs n = some c := by
  unfold lastOutput
  have hsome : (outs.reverse.find? (fun nc => nc.1 == n)).isSome := by
    rw [List.find?_isSome]
    obtain ⟨b, hb⟩ := hmem
    exact ⟨(n, b), List.mem_reverse.mpr hb, by simp⟩
  obtain ⟨v, hv⟩ := Option.isSome_iff_exists.mp hsome
  exact ⟨v.2, by rw [hv]; rfl⟩

theorem lookup_foldl_writeS_notmem (outs : List (String × List Nat))
    (base : SysState) (n : String) (hnot : ∀ b, (n, b) ∉ outs) :
    lookupFile ((outs.foldl (fun st nc => writeS st nc.1 nc.2) base)).dir n =
      lookupFile base.dir n := by
  induction outs generalizing base with
  | nil => rfl
  | cons mc rest ih =>
    have hm : mc.1 ≠ n := by
      intro hc
      exact hnot mc.2 (by rw [← hc]; exact List.mem_cons_self _ _)
    rw [List.foldl_cons,
      ih (writeS base mc.1 mc.2) (fun b hb => hnot b (List.mem_cons_of_mem _ hb)),
      lookupFile_writeS_ne base mc.1 n mc.2 hm]

theorem lookup_foldl_writeS (outs : List (String × List Nat)) (base : SysState)
    (n : String) (hmem : ∃ b, (n, b) ∈ outs) :
    (lookupFile ((outs.foldl (fun st nc => writeS st nc.1 nc.2) base)).dir n).map
        FileEntry.content = lastOutput outs n := by
  induction outs generalizing base with
  | nil => obtain ⟨b, hb⟩ := hmem; simp at hb
  | cons mc rest ih =>
    rw [List.foldl_cons]
    by_cases hr : ∃ b, (n, b) ∈ rest
    · rw [ih (writeS base mc.1 mc.2) hr, lastOutput_cons_mem mc.1 mc.2 rest n hr]
    · have hnotr : ∀ b, (n, b) ∉ rest := by
        intro b hb
        exact hr ⟨b, hb⟩
      have hm : mc.1 = n ∧ mc.2 ∈ [mc.2] := by
        obtain ⟨b, hb⟩ := hmem
        rcases List.mem_cons.mp hb with hb | hb
        · exact ⟨congrArg Prod.fst hb.symm, List.mem_cons_self _ _⟩
        · exact absurd hb (hnotr b)
      obtain ⟨hm, -⟩ := hm
      rw [lookup_foldl_writeS_notmem rest (writeS base mc.1 mc.2) n hnotr, hm,
        lookupFile_writeS]
      have hfind : (rest.reverse.find? (fun nc => nc.1 == n)) = none := by
        rw [List.find?_eq_none]
        intro x hx
        simp only [beq_iff_eq]
        intro hxn
        exact hnotr x.2 (by
          have : x = (n, x.2) := by
            cases x
            simp_all
          rw [← this]
          exact List.mem_reverse.mp hx)
      unfold lastOutput
      rw [List.reverse_cons, List.find?_append, hfind]
      simp [hm]

/-- After an engine run whose outputs include a file named `n`, that file
exists in the post-run directory with the last-written content. -/
theorem enginePost_lookup (eng : EngineRun) (s : SysState) (n : String)
    (hmem : ∃ b, (n, b) ∈ eng.outputs) :
    (lookupFile (enginePost eng s).dir n).map FileEntry.content =
      lastOutput eng.outputs n :=
  lookup_foldl_writeS eng.outputs _ n hmem

theorem enginePost_lookup_isSome (eng : EngineRun) (s : SysState) (n : String)
    (hmem : ∃ b, (n, b) ∈ eng.outputs) :
    (lookupFile (enginePost eng s).dir n).isSome := by
  obtain ⟨c, hc⟩ := lastOutput_isSome eng.outputs n hmem
  have h := enginePost_lookup eng s n hmem
  rw [hc] at h
  cases hl : lookupFile (enginePost eng s).dir n
  · rw [hl] at h
    simp at h
  · rfl

theorem subprocess_run_timeout (eng : EngineRun) (s : SysState)
    (h : 90 < eng.duration) :
    subprocess_run eng 90 s =
      (.timedOut, { s with spawned := s.spawned + 1, childRunning := false }) := by
  unfold subprocess_run
  rw [if_pos h]

/-- `convert_office_to_pdf` when the engine exits non-zero within the
timeout. -/
theorem convert_office_run_failed (l : String) (eng : EngineRun)
    (inputName : String) (s : SysState)
    (hdur : eng.duration ≤ 90) (hexit : eng.exitCode ≠ 0) :
    convert_office_to_pdf (some l) eng inputName 90 s =
      (.error (.ConversionProcessFailed eng.exitCode), enginePost eng s) := by
  simp only [convert_office_to_pdf]
  rw [subprocess_run_ok eng s hdur]
  simp [hexit]

/-- Inversion of a successful office conversion: the engine ran within the
timeout, exited 0, and the resulting state is the post-run state. -/
theorem convert_office_ok_inv (locator : Option String) (eng : EngineRun)
    (inputName : String) (s : SysState) (outPdf : String) (t : SysState)
    (h : convert_office_to_pdf locator eng inputName 90 s = (.ok outPdf, t)) :
    eng.duration ≤ 90 ∧ eng.exitCode = 0 ∧ t = enginePost eng s := by
  cases locator with
  | none => simp [convert_office_to_pdf] at h
  | some l =>
    by_cases hdur : 90 < eng.duration
    · simp only [convert_office_to_pdf] at h
      rw [subprocess_run_timeout eng s hdur] at h
      exact absurd h (by simp)
    · have hdur' : eng.duration ≤ 90 := by omega
      by_cases hexit : eng.exitCode = 0
      · rw [convert_office_run_ok l eng inputName s hdur' hexit] at h
        refine ⟨hdur', hexit, ?_⟩
        split at h
        · simp only [Prod.mk.injEq, Except.ok.injEq] at h
          exact h.2.symm
        · split at h
          · exact absurd h (by simp)
          · simp only [Prod.mk.injEq, Except.ok.injEq] at h
            exact h.2.symm
      · rw [convert_office_run_failed l eng inputName s hdur' hexit] at h
        exact absurd h (by simp)

/-- When the engine writes the expected stem-named PDF, discovery returns
it. -/
theorem convert_office_expected (l : String) (eng : EngineRun)
    (inputName : String) (s : SysState)
    (hdur : eng.duration ≤ 90) (hexit : eng.exitCode = 0)
    (hmem : ∃ b, ((path_stem inputName.toList).asString ++ ".pdf", b) ∈ eng.outputs) :
    convert_office_to_pdf (some l) eng inputName 90 s =
      (.ok ((path_stem inputName.toList).asString ++ ".pdf"), enginePost eng s) := by
  rw [convert_office_run_ok l eng inputName s hdur hexit]
  rw [if_pos (enginePost_lookup_isSome eng s _ hmem)]

/-! ## Claim theorems -/

/-- C9: the classifier maps `.pdf` to `PassThrough`, the fixed image set
(including `.png`) to `Image`, the fixed text set (including `.txt`) to
`Text`, and every other extension — including `.docx` and unknown ones
like `.xyz` — to `OfficeSuite` as the catch-all default. -/
theorem classify_spec :
    classify ".pdf" = .PassThrough ∧
    classify ".png" = .Image ∧
    classify ".txt" = .Text ∧
    classify ".docx" = .OfficeSuite ∧
    classify ".xyz" = .OfficeSuite ∧
    (∀ e ∈ IMAGE_EXTS, classify e = .Image) ∧
    (∀ e ∈ TEXT_EXTS, classify e = .Text) ∧
    (∀ ext : String, ext ≠ ".pdf" → ext ∉ IMAGE_EXTS → ext ∉ TEXT_EXTS →
      classify ext = .OfficeSuite) := by
  refine ⟨rfl, rfl, rfl, rfl, rfl, by decide, by decide, ?_⟩
  intro ext h₁ h₂ h₃
  unfold classify
  rw [if_neg h₁, if_neg h₂, if_neg h₃]

/-- Witness for C9: the catch-all arm at a fresh concrete extension. -/
theorem classify_spec_witness : classify ".tar" = .OfficeSuite :=
  classify_spec.2.2.2.2.2.2.2 ".tar" (by decide) (by decide) (by decide)

/-- C10: the oversized-input rejection fires exactly when the declared size
is strictly greater than `20 * 1024 * 1024`; a message with no declared
size (absent or zero) is accepted and downloaded whatever its actual
content. -/
theorem receive_file_size_gate :
    (∀ fs : Option Nat, sizeRejected fs = true ↔ ∃ n, fs = some n ∧ SIZE_LIMIT < n) ∧
    (∀ (nm : Option String) (n : Nat) (dOk : Bool) (bytes : List Nat)
        (d : String) (sess : Session), SIZE_LIMIT < n →
      receive_file (.document nm (some n)) dOk bytes d sess =
        ({ sess with state := .WAIT_FILE }, [.sizeLimit])) ∧
    (∀ (nm : Option String) (sz : Option Nat) (bytes : List Nat)
        (d : String) (sess : Session), sz = none ∨ sz = some 0 →
      receive_file (.document nm sz) true bytes d sess =
        ({ state := .WAIT_NAME, work_dir := some d,
           input_path := some (nm.getD "file"),
           disk := some (writeS ⟨[], 0, 0, false⟩ (nm.getD "file") bytes) },
         [.askName])) := by
  refine ⟨?_, ?_, ?_⟩
  · intro fs
    cases fs with
    | none => simp [sizeRejected]
    | some n =>
      simp only [sizeRejected, Bool.and_eq_true, bne_iff_ne, ne_eq,
        decide_eq_true_eq]
      constructor
      · rintro ⟨_, h⟩
        exact ⟨n, rfl, h⟩
      · rintro ⟨m, hm, h⟩
        cases hm
        exact ⟨by omega, h⟩
  · intro nm n dOk bytes d sess h
    have hrej : sizeRejected (some n) = true := by
      simp only [sizeRejected, Bool.and_eq_true, bne_iff_ne, ne_eq,
        decide_eq_true_eq]
      exact ⟨by omega, h⟩
    simp [receive_file, fileMeta, hrej]
  · intro nm sz bytes d sess h
    rcases h with h | h <;> subst h <;> simp [receive_file, fileMeta, sizeRejected]

/-- Witness for C10: a declared 21 MiB file is rejected with the
size-limit reply from an idle session. -/
theorem receive_file_size_gate_witness :
    receive_file (.document (some "big.iso") (some (21 * 1024 * 1024))) true [] "tg_pdf_1" idleSession =
      ({ idleSession with state := .WAIT_FILE }, [.sizeLimit]) :=
  receive_file_size_gate.2.1 (some "big.iso") (21 * 1024 * 1024) true [] "tg_pdf_1"
    idleSession (by decide)

/-- C3 (divergence witness): reaching the name step with `user_data`
absent does not trigger the context-loss branch — `Path("")` is `'.'`,
which exists — so instead of reporting context loss the machine invokes
the conversion dispatcher (against the process working directory) and runs
its normal failure path, contradicting the claim. -/
theorem receive_name_missing_state_diverges :
    (receive_name_and_convert envNoEngine true "report".toList processCwd
        lostSession).2.2 = true ∧
    (receive_name_and_convert envNoEngine true "report".toList processCwd
        lostSession).2.1 = [.converting, .genericFailed] ∧
    (receive_name_and_convert envNoEngine true "report".toList processCwd
        lostSession).1.state = .Terminal :=
  ⟨rfl, rfl, rfl⟩

/-- C1 (divergence witness): `/cancel` from the name step reaches the
terminal state but leaves the job working directory on disk — the `cancel`
handler clears `user_data` without removing the directory, contradicting
the guaranteed-cleanup invariant. -/
theorem cancel_leaks_workdir :
    (cancel midSession).1.state = .Terminal ∧
    (cancel midSession).2 = [.cancelled] ∧
    (cancel midSession).1.disk =
      some ⟨[⟨"report.docx", 1, [80, 75]⟩], 1, 0, false⟩ := by
  exact ⟨rfl, rfl, rfl⟩

/-- C5: with the backend locator reporting no engine, dispatching any input
routed to the office-suite strategy fails with `EngineNotFound` and spawns
no process (the state is wholly untouched). -/
theorem engine_not_found_spec (env : Env) (inputName : String) (s : SysState)
    (hloc : env.locator = none)
    (hcl : classify ((asciiLower (path_suffix inputName.toList)).asString) = .OfficeSuite) :
    convert_to_pdf env inputName s = (.error .EngineNotFound, s) ∧
    (convert_to_pdf env inputName s).2.spawned = s.spawned := by
  have h : convert_to_pdf env inputName s = (.error .EngineNotFound, s) := by
    simp only [convert_to_pdf]
    rw [hcl]
    simp [convert_office_to_pdf, hloc]
  exact ⟨h, by rw [h]⟩

/-- Witness for C5: a `.docx` input with the locator empty. -/
theorem engine_not_found_spec_witness :
    convert_to_pdf envNoEngine "report.docx" ⟨[⟨"report.docx", 1, [80, 75]⟩], 1, 0, false⟩ =
      (.error .EngineNotFound, ⟨[⟨"report.docx", 1, [80, 75]⟩], 1, 0, false⟩) :=
  (engine_not_found_spec envNoEngine "report.docx" _ rfl (by decide)).1

/-- C4: an office conversion whose engine outlives the 90-second default
timeout is reported as exactly `ConversionTimeout`, the child was spawned,
and it is no longer running afterwards. -/
theorem office_timeout_spec (loc : String) (eng : EngineRun)
    (inputName : String) (s : SysState) (h : 90 < eng.duration) :
    convert_office_to_pdf (some loc) eng inputName 90 s =
      (.error .ConversionTimeout,
       { s with spawned := s.spawned + 1, childRunning := false }) := by
  simp [convert_office_to_pdf, subprocess_run, h]

/-- Witness for C4: a 300-second engine run under the 90-second timeout. -/
theorem office_timeout_spec_witness :
    convert_office_to_pdf (some "/usr/bin/soffice") ⟨0, 300, [("report.pdf", [1])]⟩
        "report.docx" 90 ⟨[⟨"report.docx", 1, [80, 75]⟩], 1, 0, false⟩ =
      (.error .ConversionTimeout, ⟨[⟨"report.docx", 1, [80, 75]⟩], 1, 1, false⟩) :=
  office_timeout_spec "/usr/bin/soffice" ⟨0, 300, [("report.pdf", [1])]⟩
    "report.docx" ⟨[⟨"report.docx", 1, [80, 75]⟩], 1, 0, false⟩ (by decide)

/-- C2 counterexample: dispatching an uploaded empty `in.pdf` succeeds,
returns the canonical path, yet the canonical output file is empty — the
dispatcher performs no non-emptiness check, refuting the "non-empty" part
of the claim. -/
theorem convert_nonempty_counterexample :
    (convert_to_pdf envNoEngine "in.pdf" emptyPdfState).1 = .ok "output.pdf" ∧
    (lookupFile (convert_to_pdf envNoEngine "in.pdf" emptyPdfState).2.dir
        "output.pdf").map FileEntry.content = some [] :=
  ⟨rfl, rfl⟩

/-- C2 amended: whenever the dispatcher succeeds it returns the fixed
relative path `output.pdf`, and that file exists in the working directory
(every backend branch writes it); its content is whatever the selected
backend produced, with no non-emptiness guarantee. -/
theorem convert_canonical_path_spec (env : Env) (inputName : String)
    (s : SysState) (p : String) (s' : SysState)
    (h : convert_to_pdf env inputName s = (.ok p, s')) :
    p = "output.pdf" ∧ (lookupFile s'.dir "output.pdf").isSome := by
  cases hcl : classify ((asciiLower (path_suffix inputName.toList)).asString) with
  | PassThrough =>
    rw [convert_to_pdf_pass env inputName s hcl] at h
    split at h
    · exact absurd h (by simp)
    · rename_i s₁ hcopy
      simp only [Prod.mk.injEq, Except.ok.injEq] at h
      obtain ⟨rfl, rfl⟩ := h
      obtain ⟨-, f, -, rfl⟩ := shutil_copyfile_ok_inv _ _ _ _ hcopy
      exact ⟨rfl, by rw [lookupFile_writeS]; rfl⟩
  | Image =>
    rw [convert_to_pdf_image env inputName s hcl] at h
    split at h
    · exact absurd h (by simp)
    · rename_i f hf
      split at h
      · exact absurd h (by simp)
      · rename_i b hb
        simp only [Prod.mk.injEq, Except.ok.injEq] at h
        obtain ⟨rfl, rfl⟩ := h
        exact ⟨rfl, by rw [lookupFile_writeS]; rfl⟩
  | Text =>
    rw [convert_to_pdf_text env inputName s hcl] at h
    split at h
    · exact absurd h (by simp)
    · rename_i f hf
      simp only [Prod.mk.injEq, Except.ok.injEq] at h
      obtain ⟨rfl, rfl⟩ := h
      exact ⟨rfl, by rw [lookupFile_writeS]; rfl⟩
  | OfficeSuite =>
    rw [convert_to_pdf_office env inputName s hcl] at h
    split at h
    · exact absurd h (by simp)
    · rename_i outPdf s₁ hoff
      split at h
      · exact absurd h (by simp)
      · rename_i s₂ hcopy
        simp only [Prod.mk.injEq, Except.ok.injEq] at h
        obtain ⟨rfl, rfl⟩ := h
        obtain ⟨-, f, -, rfl⟩ := shutil_copyfile_ok_inv _ _ _ _ hcopy
        exact ⟨rfl, by rw [lookupFile_writeS]; rfl⟩

/-- Witness for C2 (amended): a concrete pass-through conversion lands at
`output.pdf`, which exists. -/
theorem convert_canonical_path_spec_witness :
    ("output.pdf" : String) = "output.pdf" ∧
    (lookupFile (convert_to_pdf envNoEngine "hello.pdf" helloPdfState).2.dir
        "output.pdf").isSome :=
  convert_canonical_path_spec envNoEngine "hello.pdf" helloPdfState
    "output.pdf" (convert_to_pdf envNoEngine "hello.pdf" helloPdfState).2 rfl

/-- C7: after a successful (exit 0, within-timeout) engine invocation,
output discovery selects the file named after the input's stem with a
`.pdf` extension when it exists; otherwise it selects a PDF whose
modification time is maximal among the PDFs of the working directory; and
when no PDF exists at all it fails with exactly `NoOutputProduced`. -/
theorem office_discovery_spec (loc : String) (eng : EngineRun)
    (inputName : String) (s : SysState)
    (hdur : eng.duration ≤ 90) (hexit : eng.exitCode = 0) :
    ((lookupFile (enginePost eng s).dir
        ((path_stem inputName.toList).asString ++ ".pdf")).isSome →
      convert_office_to_pdf (some loc) eng inputName 90 s =
        (.ok ((path_stem inputName.toList).asString ++ ".pdf"), enginePost eng s)) ∧
    (¬(lookupFile (enginePost eng s).dir
        ((path_stem inputName.toList).asString ++ ".pdf")).isSome →
      (∀ e ∈ (enginePost eng s).dir, isPdfName e.name = false) →
      convert_office_to_pdf (some loc) eng inputName 90 s =
        (.error .NoOutputProduced, enginePost eng s)) ∧
    (¬(lookupFile (enginePost eng s).dir
        ((path_stem inputName.toList).asString ++ ".pdf")).isSome →
      ∀ w ∈ (enginePost eng s).dir, isPdfName w.name = true →
      ∃ v ∈ (enginePost eng s).dir, isPdfName v.name = true ∧
        convert_office_to_pdf (some loc) eng inputName 90 s =
          (.ok v.name, enginePost eng s) ∧
        ∀ e ∈ (enginePost eng s).dir, isPdfName e.name = true →
          e.mtime ≤ v.mtime) := by
  rw [convert_office_run_ok loc eng inputName s hdur hexit]
  refine ⟨fun hexp => by rw [if_pos hexp], fun hexp hnone => ?_, fun hexp w hw hwpdf => ?_⟩
  · rw [if_neg hexp]
    have hfil : (enginePost eng s).dir.filter (fun e => isPdfName e.name) = [] := by
      rw [List.filter_eq_nil_iff]
      intro a ha
      simp [hnone a ha]
    have : newestPdfFirst (enginePost eng s).dir = [] := by
      unfold newestPdfFirst
      rw [hfil, List.mergeSort_nil]
    rw [this]
  · rw [if_neg hexp]
    cases hlist : newestPdfFirst (enginePost eng s).dir with
    | nil =>
      exfalso
      have : w ∈ newestPdfFirst (enginePost eng s).dir := by
        unfold newestPdfFirst
        rw [List.mem_mergeSort]
        exact List.mem_filter.mpr ⟨hw, hwpdf⟩
      rw [hlist] at this
      simp at this
    | cons v rest =>
      obtain ⟨hv, hvpdf, hvmax⟩ := newestPdfFirst_head_max _ v rest hlist
      exact ⟨v, hv, hvpdf, rfl, hvmax⟩

/-- Witness for C7: an engine writing `report.pdf` for input `report.docx`
in a fresh directory: the expected name is discovered. -/
theorem office_discovery_spec_witness :
    convert_office_to_pdf (some "/usr/bin/soffice") ⟨0, 0, [("report.pdf", [1])]⟩
        "report.docx" 90 ⟨[], 0, 0, false⟩ =
      (.ok "report.pdf", enginePost ⟨0, 0, [("report.pdf", [1])]⟩ ⟨[], 0, 0, false⟩) := by
  have h := (office_discovery_spec "/usr/bin/soffice" ⟨0, 0, [("report.pdf", [1])]⟩
    "report.docx" ⟨[], 0, 0, false⟩ (by decide) rfl).1 (by decide)
  simpa using h

/-- C8 counterexample: with an ordinary engine (exit 0) that writes its
PDF under a variant name `weird.pdf`, converting `output.docx` succeeds the
first time (fallback discovery picks `weird.pdf` and standardizes it), but
the second invocation on the same input and working directory fails with a
same-file copy error: discovery now finds the stale canonical `output.pdf`
under the expected stem name and copies it onto itself. -/
theorem convert_idempotence_counterexample :
    (convert_to_pdf envWeird "output.docx" outputDocxState).1 = .ok "output.pdf" ∧
    (convert_to_pdf envWeird "output.docx"
        (convert_to_pdf envWeird "output.docx" outputDocxState).2).1 =
      .error .SameFileCopy := by
  have run1 : convert_to_pdf envWeird "output.docx" outputDocxState =
      (.ok "output.pdf",
       ⟨[⟨"output.docx", 1, [80, 75]⟩, ⟨"weird.pdf", 2, [7, 7]⟩,
         ⟨"output.pdf", 3, [7, 7]⟩], 3, 1, false⟩) := by
    rw [convert_to_pdf_office envWeird "output.docx" outputDocxState (by decide)]
    simp only [envWeird]
    rw [convert_office_run_ok "/usr/bin/soffice" ⟨0, 0, [("weird.pdf", [7, 7])]⟩
      "output.docx" outputDocxState (by decide) rfl]
    rw [if_neg (by decide)]
    rw [show newestPdfFirst
          (enginePost ⟨0, 0, [("weird.pdf", [7, 7])]⟩ outputDocxState).dir =
        [⟨"weird.pdf", 2, [7, 7]⟩] from by
      unfold newestPdfFirst
      rw [show (enginePost ⟨0, 0, [("weird.pdf", [7, 7])]⟩ outputDocxState).dir.filter
          (fun e => isPdfName e.name) = [⟨"weird.pdf", 2, [7, 7]⟩] from rfl]
      exact List.mergeSort_singleton _]
    rfl
  rw [run1]
  exact ⟨rfl, rfl⟩

/-- C8 amended: a second invocation of the dispatcher on the same input and
working directory succeeds with the same canonical content, provided the
input is not office-routed or the engine writes the PDF named after the
input's stem; when instead discovery on the second run selects the stale
canonical `output.pdf` itself (as in the counterexample), the second run
fails with a same-file copy error. -/
theorem convert_idempotent_spec (env : Env) (inputName : String) (s : SysState)
    (p : String) (s₁ : SysState)
    (h1 : convert_to_pdf env inputName s = (.ok p, s₁))
    (hgood : classify ((asciiLower (path_suffix inputName.toList)).asString) ≠ .OfficeSuite ∨
      ∃ b, ((path_stem inputName.toList).asString ++ ".pdf", b) ∈ env.eng.outputs) :
    ∃ s₂ : SysState, convert_to_pdf env inputName s₁ = (.ok p, s₂) ∧
      (lookupFile s₂.dir "output.pdf").map FileEntry.content =
        (lookupFile s₁.dir "output.pdf").map FileEntry.content := by
  cases hcl : classify ((asciiLower (path_suffix inputName.toList)).asString) with
  | PassThrough =>
    rw [convert_to_pdf_pass env inputName s hcl] at h1
    split at h1
    · exact absurd h1 (by simp)
    · rename_i t₁ hcopy
      simp only [Prod.mk.injEq, Except.ok.injEq] at h1
      obtain ⟨rfl, rfl⟩ := h1
      obtain ⟨hne, f, hf, rfl⟩ := shutil_copyfile_ok_inv _ _ _ _ hcopy
      have hf₂ : lookupFile (writeS s "output.pdf" f.content).dir inputName = some f := by
        rw [lookupFile_writeS_ne s "output.pdf" inputName f.content
          (fun hh => hne hh.symm), hf]
      have hcopy₂ : shutil_copyfile inputName "output.pdf"
          (writeS s "output.pdf" f.content) =
          .ok (writeS (writeS s "output.pdf" f.content) "output.pdf" f.content) := by
        unfold shutil_copyfile
        rw [if_neg hne, hf₂]
      refine ⟨_, convert_to_pdf_pass_ok env inputName _ _ hcl hcopy₂, ?_⟩
      rw [lookupFile_writeS, lookupFile_writeS]
      rfl
  | Image =>
    rw [convert_to_pdf_image env inputName s hcl] at h1
    split at h1
    · exact absurd h1 (by simp)
    · rename_i f hf
      split at h1
      · exact absurd h1 (by simp)
      · rename_i b hb
        simp only [Prod.mk.injEq, Except.ok.injEq] at h1
        obtain ⟨rfl, rfl⟩ := h1
        have hne : inputName ≠ "output.pdf" := by
          intro hh
          rw [hh] at hcl
          exact absurd hcl (by decide)
        have hf₂ : lookupFile (writeS s "output.pdf" b).dir inputName = some f := by
          rw [lookupFile_writeS_ne s "output.pdf" inputName b
            (fun hh => hne hh.symm), hf]
        refine ⟨_, convert_to_pdf_image_ok env inputName _ f b hcl hf₂ hb, ?_⟩
        rw [lookupFile_writeS, lookupFile_writeS]
        rfl
  | Text =>
    rw [convert_to_pdf_text env inputName s hcl] at h1
    split at h1
    · exact absurd h1 (by simp)
    · rename_i f hf
      simp only [Prod.mk.injEq, Except.ok.injEq] at h1
      obtain ⟨rfl, rfl⟩ := h1
      have hne : inputName ≠ "output.pdf" := by
        intro hh
        rw [hh] at hcl
        exact absurd hcl (by decide)
      have hf₂ : lookupFile
          (writeS s "output.pdf" (env.textConvert f.content)).dir inputName = some f := by
        rw [lookupFile_writeS_ne s "output.pdf" inputName (env.textConvert f.content)
          (fun hh => hne hh.symm), hf]
      refine ⟨_, convert_to_pdf_text_ok env inputName _ f hcl hf₂, ?_⟩
      rw [lookupFile_writeS, lookupFile_writeS]
      rfl
  | OfficeSuite =>
    rcases hgood with hncl | hmem
    · exact absurd hcl hncl
    rw [convert_to_pdf_office env inputName s hcl] at h1
    split at h1
    · exact absurd h1 (by simp)
    · rename_i outPdf t₁ hoff
      split at h1
      · exact absurd h1 (by simp)
      · rename_i t' hcopy
        simp only [Prod.mk.injEq, Except.ok.injEq] at h1
        obtain ⟨rfl, rfl⟩ := h1
        obtain ⟨hdur, hexit, rfl⟩ := convert_office_ok_inv _ _ _ _ _ _ hoff
        cases hloc : env.locator with
        | none =>
          rw [hloc] at hoff
          simp [convert_office_to_pdf] at hoff
        | some l =>
          rw [hloc] at hoff
          rw [convert_office_expected l env.eng inputName s hdur hexit hmem] at hoff
          simp only [Prod.mk.injEq, Except.ok.injEq] at hoff
          obtain ⟨rfl, -⟩ := hoff
          obtain ⟨hne, f, hf, rfl⟩ := shutil_copyfile_ok_inv _ _ _ _ hcopy
          -- the copied content is the engine's last write under the expected name
          have hlast : some f.content =
              lastOutput env.eng.outputs
                ((path_stem inputName.toList).asString ++ ".pdf") := by
            have h := enginePost_lookup env.eng s
              ((path_stem inputName.toList).asString ++ ".pdf") hmem
            rw [hf] at h
            exact h
          -- run 2: the engine rewrites the expected file with the same content
          have hpost₂ := enginePost_lookup env.eng
            (writeS (enginePost env.eng s) "output.pdf" f.content)
            ((path_stem inputName.toList).asString ++ ".pdf") hmem
          rw [← hlast] at hpost₂
          cases hf₂ : lookupFile
              (enginePost env.eng
                (writeS (enginePost env.eng s) "output.pdf" f.content)).dir
              ((path_stem inputName.toList).asString ++ ".pdf") with
          | none =>
            rw [hf₂] at hpost₂
            simp at hpost₂
          | some f₂ =>
            rw [hf₂] at hpost₂
            simp only [Option.map_some', Option.some.injEq] at hpost₂
            have hcopy₂ : shutil_copyfile
                ((path_stem inputName.toList).asString ++ ".pdf") "output.pdf"
                (enginePost env.eng
                  (writeS (enginePost env.eng s) "output.pdf" f.content)) =
                .ok (writeS (enginePost env.eng
                  (writeS (enginePost env.eng s) "output.pdf" f.content))
                  "output.pdf" f₂.content) := by
              unfold shutil_copyfile
              rw [if_neg hne, hf₂]
            have hoff₂ : convert_office_to_pdf env.locator env.eng inputName 90
                (writeS (enginePost env.eng s) "output.pdf" f.content) =
                (.ok ((path_stem inputName.toList).asString ++ ".pdf"),
                 enginePost env.eng
                   (writeS (enginePost env.eng s) "output.pdf" f.content)) := by
              rw [hloc]
              exact convert_office_expected l env.eng inputName _ hdur hexit hmem
            refine ⟨_, convert_to_pdf_office_ok env inputName _ _ _ _ hcl hoff₂ hcopy₂, ?_⟩
            rw [lookupFile_writeS, lookupFile_writeS]
            simp [hpost₂]

/-- Witness for C8 (amended): a concrete pass-through conversion run twice
yields the same canonical content. -/
theorem convert_idempotent_spec_witness :
    ∃ s₂ : SysState,
      convert_to_pdf envNoEngine "hello.pdf"
          (convert_to_pdf envNoEngine "hello.pdf" helloPdfState).2 =
        (.ok "output.pdf", s₂) ∧
      (lookupFile s₂.dir "output.pdf").map FileEntry.content =
        (lookupFile (convert_to_pdf envNoEngine "hello.pdf" helloPdfState).2.dir
            "output.pdf").map FileEntry.content :=
  convert_idempotent_spec envNoEngine "hello.pdf" helloPdfState "output.pdf"
    (convert_to_pdf envNoEngine "hello.pdf" helloPdfState).2 rfl
    (Or.inl (by decide))

end PdfBot
